import Mathlib

/-!
Verification development for the rust-redis-stack-vectordb repository.

The Rust sources are shallowly embedded:
* `f64` values are modelled by their 64-bit IEEE-754 bit patterns, i.e. natural
  numbers below `2 ^ 64` (bit-for-bit identity implies Rust `==` on finite
  floats, which is the regime all round-trip claims restrict themselves to);
* byte buffers are `List Nat` with each entry below 256 by construction;
* Rust `String`s are `List Char` (`Str` below), so that splitting on `':'`
  (used by the id-resolution logic in `lib.rs`) can be reasoned about by
  structural induction;
* the Redis backend state is an explicit record of association lists: hash keys
  (each hash always carries exactly the two fields `vector` and
  `metadata_json_id` that the code ever writes), RedisJSON documents (stored as
  the parsed `Payload`, since `serde_json` round-trips the value), and the set
  of existing RediSearch indexes;
* backend commands that the code lets fail (FT.DROPINDEX, JSON.DEL during
  collection deletion, FT.SEARCH, SCAN, the embedding provider) are given their
  outcomes by explicit oracle parameters, so that error-handling claims
  quantify over every possible backend reply.
-/

namespace VectorDB

/-- Rust strings, modelled as their character lists. -/
abbrev Str := List Char

/-! ## VectorCodec (src/redis_engine.rs, serialize_vector / deserialize_vector)

`LittleEndian::write_f64` stores the 8 bytes of the float's bit pattern least
significant first; `LittleEndian::read_f64` reassembles them. -/

/-- The 8 little-endian bytes of a 64-bit bit pattern
(`byteorder::LittleEndian::write_f64` on `val.to_bits()`). -/
def write_f64_le (val : Nat) : List Nat :=
  [val % 256, val / 256 % 256, val / 256 ^ 2 % 256, val / 256 ^ 3 % 256,
   val / 256 ^ 4 % 256, val / 256 ^ 5 % 256, val / 256 ^ 6 % 256, val / 256 ^ 7 % 256]

/-- Reassemble a 64-bit bit pattern from 8 little-endian bytes
(`byteorder::LittleEndian::read_f64`). -/
def read_f64_le (b : List Nat) : Nat :=
  match b with
  | [b0, b1, b2, b3, b4, b5, b6, b7] =>
      b0 + b1 * 256 + b2 * 256 ^ 2 + b3 * 256 ^ 3 + b4 * 256 ^ 4 + b5 * 256 ^ 5 +
        b6 * 256 ^ 6 + b7 * 256 ^ 7
  | _ => 0

/-- `RedisEngine::serialize_vector`: consecutive 8-byte little-endian blocks,
one per element. -/
def serialize_vector : List Nat → List Nat
  | [] => []
  | x :: rest => write_f64_le x ++ serialize_vector rest

/-- `RedisEngine::deserialize_vector`: read the buffer in 8-byte chunks,
silently dropping a trailing incomplete chunk (`if chunk.len() == 8`). -/
def deserialize_vector : List Nat → List Nat
  | b0 :: b1 :: b2 :: b3 :: b4 :: b5 :: b6 :: b7 :: rest =>
      read_f64_le [b0, b1, b2, b3, b4, b5, b6, b7] :: deserialize_vector rest
  | _ => []

/-! ## Association-list primitives for the backend state -/

/-- Lookup by key (first binding wins). -/
def alGet {β : Type} : List (Str × β) → Str → Option β
  | [], _ => none
  | p :: rest, k => if p.1 = k then some p.2 else alGet rest k

/-- Remove every binding of a key (Redis `DEL` / `JSON.DEL`). -/
def alErase {β : Type} : List (Str × β) → Str → List (Str × β)
  | [], _ => []
  | p :: rest, k => if p.1 = k then alErase rest k else p :: alErase rest k

/-- Write a key (Redis `HSET` overwrite / `JSON.SET`): replace any old binding. -/
def alSet {β : Type} (l : List (Str × β)) (k : Str) (v : β) : List (Str × β) :=
  (k, v) :: alErase l k

/-- Boolean membership in a list of names. -/
def memStr : List Str → Str → Bool
  | [], _ => false
  | x :: rest, k => if x = k then true else memStr rest k

/-! ## Data model (src/models.rs) -/

/-- `serde_json::Value` (numbers restricted to the integer range the code
actually inspects via `as_u64`). -/
inductive Json where
  | str : Str → Json
  | num : Int → Json
  | bool : Bool → Json
  | null : Json
  | arr : List Json → Json
  | obj : List (Str × Json) → Json

/-- `models::Metadata`: required fields plus a flattened map of extra fields. -/
structure Metadata where
  uri : Str
  chunk_id : Nat
  source : Str
  extra : List (Str × Json)

/-- `Metadata::new`: the builder used by `upsert_vector`; `extra` starts empty. -/
def Metadata.new (uri : Str) (chunk_id : Nat) (source : Str) : Metadata :=
  ⟨uri, chunk_id, source, []⟩

/-- `models::Payload`. -/
structure Payload where
  content : Str
  metadata : Metadata

/-- `models::PointStruct`. -/
structure PointStruct where
  id : Str
  vector : List Nat
  payload : Payload

/-! ## Backend state

The code only ever writes Redis hashes with exactly the fields `vector` and
`metadata_json_id` (one `hset_multiple` call), so a hash is modelled as that
record. RedisJSON documents are written with `JSON.SET key $ json` where
`json` is `serde_json::to_string` of a `Payload` (or the literal placeholder
document, which parses to the same shape); since `serde_json` round-trips the
value, the store keeps the parsed `Payload`. -/

/-- A stored Redis hash: the two fields the code writes. -/
structure HashRecord where
  vector : List Nat
  metadata_json_id : Str

/-- The whole backend state visible to the embedded operations. -/
structure RedisState where
  hashes : List (Str × HashRecord)
  jsons : List (Str × Payload)
  indexes : List Str

/-- A backend with no keys and no indexes. -/
def RedisState.empty : RedisState := ⟨[], [], []⟩

/-- `error::VectorStoreError`, collapsed to the kinds the embedded paths can
produce (`RedisError` for backend failures, `Other` for integrity errors). -/
inductive VErr where
  | backend : VErr
  | other : Str → VErr

/-! ## RecordStore operations (src/redis_engine.rs) -/

/-- The placeholder metadata document
`{"content":"","metadata":{"uri":"","chunk_id":0,"source":""}}` parsed as a
`Payload` (a flattened-map `Metadata` with no extra fields). -/
def placeholderPayload : Payload := ⟨[], ⟨[], 0, [], []⟩⟩

/-- `RedisEngine::create_collection`: no-op when `FT.INFO` finds the index;
otherwise `FT.CREATE` (dimension 768), then the placeholder JSON document
`metadata:<collection>:empty`, then the placeholder zero-vector hash
`<collection>:empty`. In the deterministic (accepting-backend) model every
command succeeds. -/
def create_collection (col : Str) (s : RedisState) : RedisState :=
  if memStr s.indexes col then s
  else
    let s1 : RedisState := ⟨s.hashes, s.jsons, col :: s.indexes⟩
    let metadata_id := "metadata:".data ++ col ++ ":empty".data
    let s2 : RedisState := ⟨s1.hashes, alSet s1.jsons metadata_id placeholderPayload, s1.indexes⟩
    let vector_id := col ++ ":empty".data
    let vector_bytes := serialize_vector (List.replicate 768 0)
    ⟨alSet s2.hashes vector_id ⟨vector_bytes, metadata_id⟩, s2.jsons, s2.indexes⟩

/-- `RedisEngine::delete_collection`, with the outcomes of the two fallible
backend commands (`FT.DROPINDEX ... DD` and `JSON.DEL`) supplied by the
caller-side oracle booleans. A failed drop aborts; after a successful drop the
index and every document under the collection prefix are gone; the `?` on the
`JSON.DEL` placeholder cleanup propagates a cleanup failure. -/
def delete_collection (dropOk cleanupOk : Bool) (col : Str) (s : RedisState) :
    Except VErr RedisState :=
  if dropOk then
    let s1 : RedisState :=
      ⟨s.hashes.filter (fun p => !((col ++ [':']).isPrefixOf p.1)),
       s.jsons,
       s.indexes.filter (fun x => !(x = col : Bool))⟩
    if cleanupOk then
      Except.ok ⟨s1.hashes, alErase s1.jsons ("metadata:".data ++ col ++ ":empty".data), s1.indexes⟩
    else Except.error VErr.backend
  else Except.error VErr.backend

/-- `RedisEngine::get_vector`: `HGETALL <collection>:<id>`; an absent hash is
`Ok(None)`; otherwise the vector bytes are decoded and the metadata document is
fetched by the stored reference (`JSON.GET` on a missing document is a backend
error, which `?` propagates). -/
def get_vector (col : Str) (vector_id : Str) (s : RedisState) :
    Except VErr (Option PointStruct) :=
  let full_id := col ++ [':'] ++ vector_id
  match alGet s.hashes full_id with
  | none => Except.ok none
  | some record =>
    let vector := deserialize_vector record.vector
    match alGet s.jsons record.metadata_json_id with
    | none => Except.error VErr.backend
    | some payload => Except.ok (some ⟨vector_id, vector, payload⟩)

/-- The map returned by `RedisEngine::get_collection_info`. -/
structure CollectionInfo where
  collection_name : Str
  index_exists : Bool
  metadata_exists : Bool
  document_count : Nat

/-- `RedisEngine::get_collection_info`: probes `FT.INFO`, the placeholder
document, and (only when the index exists) counts the indexed documents, i.e.
the keys under the collection prefix. -/
def get_collection_info (col : Str) (s : RedisState) : CollectionInfo :=
  ⟨col,
   memStr s.indexes col,
   (alGet s.jsons ("metadata:".data ++ col ++ ":empty".data)).isSome,
   if memStr s.indexes col then
     (s.hashes.filter (fun p => (col ++ [':']).isPrefixOf p.1)).length
   else 0⟩

/-- `RedisEngine::add_vector_and_metadata`: ensure the collection exists, then
`HSET <collection>:<id> {vector, metadata_json_id}`, then
`JSON.SET metadata:<id> $ <payload>`; returns `(vector_id, metadata_id)`. -/
def add_vector_and_metadata (col : Str) (point : PointStruct) (s : RedisState) :
    (Str × Str) × RedisState :=
  let s1 := create_collection col s
  let vector_id := point.id
  let metadata_id := "metadata:".data ++ vector_id
  let vector_key := col ++ [':'] ++ vector_id
  let vector_bytes := serialize_vector point.vector
  let s2 : RedisState := ⟨alSet s1.hashes vector_key ⟨vector_bytes, metadata_id⟩, s1.jsons, s1.indexes⟩
  let s3 : RedisState := ⟨s2.hashes, alSet s2.jsons metadata_id point.payload, s2.indexes⟩
  ((vector_id, metadata_id), s3)

/-- `RedisEngine::delete_vector_and_metadata`: `DEL <collection>:<id>` then
`JSON.DEL metadata:<id>`; both succeed on an accepting backend even when the
keys are absent, so the operation always returns `Ok`. -/
def delete_vector_and_metadata (col : Str) (vector_id : Str) (s : RedisState) :
    Except VErr RedisState :=
  let vector_key := col ++ [':'] ++ vector_id
  let s1 : RedisState := ⟨alErase s.hashes vector_key, s.jsons, s.indexes⟩
  let metadata_id := "metadata:".data ++ vector_id
  Except.ok ⟨s1.hashes, alErase s1.jsons metadata_id, s1.indexes⟩

/-! ## Top-level id resolution (src/lib.rs, get_vector) -/

/-- Rust `str::split(sep)`: `""` splits to `[""]`, separators delimit (possibly
empty) segments. -/
def splitOnChar (sep : Char) : List Char → List (List Char)
  | [] => [[]]
  | c :: rest =>
    if c = sep then [] :: splitOnChar sep rest
    else
      match splitOnChar sep rest with
      | [] => [[c]]
      | p :: ps => (c :: p) :: ps

/-- Rust `str::contains(':')`. -/
def hasColon : Str → Bool
  | [] => false
  | c :: rest => if c = ':' then true else hasColon rest

/-- `lib::get_vector`: a `vector_id` containing `':'` is split on `':'` and
`parts[0]` / `parts[1]` are used as collection and record id (splitting a
colon-containing string always yields at least two parts, so the Rust indexing
cannot panic and `headD` never takes its default); a bare id uses
`collection_name.unwrap_or("empty")`. -/
def get_vector_top (vector_id : Str) (collection_name : Option Str) (s : RedisState) :
    Except VErr (Option PointStruct) :=
  let pair : Str × Str :=
    if hasColon vector_id then
      let parts := splitOnChar ':' vector_id
      (parts.headD [], (parts.drop 1).headD [])
    else
      (collection_name.getD ("empty".data), vector_id)
  get_vector pair.1 pair.2 s

/-! ## StoreDriver (src/redis_vector_store_driver.rs) -/

/-- `serde_json::Value::as_str`. -/
def jsonAsStr : Json → Option Str
  | Json.str s => some s
  | _ => none

/-- `serde_json::Value::as_u64`: defined exactly on non-negative integers. -/
def jsonAsU64 : Json → Option Nat
  | Json.num n => if 0 ≤ n then some n.toNat else none
  | _ => none

/-- The `match meta` at the top of `upsert_vector`: a JSON object's fields are
inserted one by one into a fresh map, anything else gives an empty map. -/
def metaToMap : Option Json → List (Str × Json)
  | some (Json.obj fields) => fields.foldl (fun acc kv => alSet acc kv.1 kv.2) []
  | some _ => []
  | none => []

/-- The default-population step of `upsert_vector`: `uri=""` and `chunk_id=0`
are inserted when the caller's map lacks them (`contains_key` then `insert`). -/
def defaultedMetadataMap (meta : Option Json) : List (Str × Json) :=
  let m0 := metaToMap meta
  let m1 := if (alGet m0 ("uri".data)).isSome then m0
            else alSet m0 ("uri".data) (Json.str [])
  if (alGet m1 ("chunk_id".data)).isSome then m1
  else alSet m1 ("chunk_id".data) (Json.num 0)

/-- The merged metadata map built by `upsert_vector`: the defaults, then the
namespace tag when provided. -/
def mergedMetadataMap (nspace : Option Str) (meta : Option Json) : List (Str × Json) :=
  match nspace with
  | some n => alSet (defaultedMetadataMap meta) ("namespace".data) (Json.str n)
  | none => defaultedMetadataMap meta

/-- `RedisStackVectorStoreDriver::upsert_vector`: build the merged metadata
map, extract only `uri` / `chunk_id` / `source` into `Metadata::new` (whose
`extra` map is empty), build the `Payload` and `PointStruct` (generated id
`get_uuid(&vector)` — the external uuid-v5 library call — is supplied as the
function parameter `uuidOf`), and delegate to `add_vector_and_metadata`. -/
def upsert_vector (col : Str) (vector : List Nat) (vector_id : Option Str)
    (nspace : Option Str) (meta : Option Json) (content : Option Str)
    (uuidOf : List Nat → Str) (s : RedisState) : Str × RedisState :=
  let metadata_map := mergedMetadataMap nspace meta
  let uri := ((alGet metadata_map ("uri".data)).bind jsonAsStr).getD []
  let chunk_id := ((alGet metadata_map ("chunk_id".data)).bind jsonAsU64).getD 0
  let source := ((alGet metadata_map ("source".data)).bind jsonAsStr).getD []
  let metadata := Metadata.new uri chunk_id source
  let content_str := content.getD []
  let payload : Payload := ⟨content_str, metadata⟩
  let point : PointStruct :=
    match vector_id with
    | some id => ⟨id, vector, payload⟩
    | none => ⟨uuidOf vector, vector, payload⟩
  let r := add_vector_and_metadata col point s
  (r.1.1, r.2)

/-- `redis::Value`: the untyped reply shape the search-result parser walks. -/
inductive RValue where
  | data : List Nat → RValue
  | status : Str → RValue
  | bulk : List RValue → RValue
  | int : Int → RValue
  | nil : RValue
  | okay : RValue

/-- `redis_vector_store_driver::Entry` (the `meta` field holds
`serde_json::to_value` of the payload, which determines and is determined by
the payload, so the payload itself is stored). Scores are f64 bit patterns;
the literal `0.0` has bit pattern `0`. -/
structure Entry where
  id : Str
  vector : List Nat
  score : Nat
  meta : Payload

/-- `RedisStackVectorStoreDriver::load_entry`: top-level `get_vector` with the
driver's collection, wrapping a found point into an `Entry` with score `0.0`. -/
def load_entry (col : Str) (vector_id : Str) (s : RedisState) :
    Except VErr (Option Entry) :=
  match get_vector_top vector_id (some col) s with
  | Except.ok (some p) => Except.ok (some ⟨p.id, p.vector, 0, p.payload⟩)
  | Except.ok none => Except.ok none
  | Except.error e => Except.error e

/-- Outcomes of the external calls `query` makes, supplied as an oracle:
`collectionOk` is the `get_collection` probe, `embedResult` the embedding
provider, `searchResult` the `FT.SEARCH` reply, `scanFirst` / `scanSecond` the
two `SCAN` replies of the fallback (decoded as `Vec<String>` and
`(String, Vec<String>)` respectively), `parseFloat` the Rust
`str::parse::<f64>` (as bit patterns), and `utf8Lossy` the Rust
`String::from_utf8_lossy`. -/
structure QueryBackend where
  collectionOk : Bool
  embedResult : Except Unit (List Nat)
  searchResult : Except Unit (List RValue)
  scanFirst : Except Unit (List Str)
  scanSecond : Except Unit (Str × List Str)
  parseFloat : Str → Option Nat
  utf8Lossy : List Nat → Str

/-- `redis_vector_store_driver::convert_to_float`: `"nan"` and unparsable
strings map to `0.0` (bit pattern `0`). -/
def convert_to_float (parseFloat : Str → Option Nat) (value : Str) : Nat :=
  if value = "nan".data then 0 else (parseFloat value).getD 0

/-- Group a flat list into consecutive pairs, dropping a trailing odd element
(the `step_by(2)` loops with their `i + 1 >= len` break). -/
def pairUp : List RValue → List (RValue × RValue)
  | x :: y :: rest => (x, y) :: pairUp rest
  | _ => []

/-- Document-key or field-name extraction: `Data` is decoded lossily, `Status`
taken as is, anything else hits the `_ => continue` arm. -/
def rvalueText (qb : QueryBackend) : RValue → Option Str
  | RValue.data bytes => some (qb.utf8Lossy bytes)
  | RValue.status s => some s
  | _ => none

/-- The inner field loop of the search-result parser: fold the `(name, value)`
strides, assigning the score on a `vector_score` field (the catch-all value arm
assigns `0.0`) and the decoded vector on a `vector` field when vectors were
requested. -/
def processFields (qb : QueryBackend) (include_vectors : Bool)
    (fields : List RValue) : Nat × List Nat :=
  (pairUp fields).foldl
    (fun acc p =>
      match rvalueText qb p.1 with
      | none => acc
      | some name =>
        if name = "vector_score".data then
          let sc :=
            match p.2 with
            | RValue.data bytes => convert_to_float qb.parseFloat (qb.utf8Lossy bytes)
            | RValue.status s => convert_to_float qb.parseFloat s
            | _ => 0
          (sc, acc.2)
        else if name = "vector".data ∧ include_vectors then
          match p.2 with
          | RValue.data bytes => (acc.1, deserialize_vector bytes)
          | _ => acc
        else acc)
    (0, [])

/-- One `(document_key, field_array)` pair of the successful-search loop:
extract the id (`parts[1]` when the key contains `':'`, else the whole key),
parse the fields, resolve the full record via the top-level `get_vector`, and
build the `Entry`; any `continue` / failed lookup contributes nothing. -/
def processHit (qb : QueryBackend) (col : Str) (include_vectors : Bool)
    (s : RedisState) (hit : RValue × RValue) : Option Entry :=
  match rvalueText qb hit.1 with
  | none => none
  | some doc_id =>
    let id_parts := splitOnChar ':' doc_id
    let id := if 1 < id_parts.length then (id_parts.drop 1).headD [] else doc_id
    match hit.2 with
    | RValue.bulk field_values =>
      let sv := processFields qb include_vectors field_values
      match get_vector_top id (some col) s with
      | Except.ok (some point) =>
        let entry_vector :=
          if include_vectors ∧ sv.2 ≠ [] then sv.2
          else if include_vectors then point.vector
          else []
        some ⟨id, entry_vector, sv.1, point.payload⟩
      | _ => none
    | _ => none

/-- The fallback loop over the keys of the second scan: keys without a `':'`
are skipped, otherwise `parts[1]` is loaded via `load_entry`; a failed or empty
load is skipped, and the loop breaks once `max_docs` entries are collected. -/
def fallbackLoop (col : Str) (s : RedisState) (max_docs : Nat) :
    List Str → List Entry → List Entry
  | [], acc => acc
  | key :: rest, acc =>
    let key_parts := splitOnChar ':' key
    if 1 < key_parts.length then
      let id := (key_parts.drop 1).headD []
      match load_entry col id s with
      | Except.ok (some e) =>
        let acc' := acc ++ [e]
        if max_docs ≤ acc'.length then acc'
        else fallbackLoop col s max_docs rest acc'
      | _ => fallbackLoop col s max_docs rest acc
    else fallbackLoop col s max_docs rest acc

/-- The namespace filter expression of the KNN query. -/
def filterExpr (nspace : Option Str) : Str :=
  match nspace with
  | some n => "(@namespace:\x7b".data ++ n ++ "\x7d)".data
  | none => "*".data

/-- `RedisStackVectorStoreDriver::query`: probe the collection (initializing it
via `create_collection` when the probe fails), obtain the query vector (given
directly or from the embedding provider, whose failure propagates), issue the
KNN search, and either parse the reply or — when the search call errs — fall
back to the two-step key scan whose own failures are all absorbed by
`if let Ok(...)` patterns. -/
def query (qb : QueryBackend) (col : Str) (count : Option Nat)
    (include_vectors : Bool) (nspace : Option Str)
    (query_vector : Option (List Nat)) (s : RedisState) :
    Except VErr (List Entry) :=
  let s := if qb.collectionOk then s else create_collection col s
  match (match query_vector with
         | some v => Except.ok v
         | none => qb.embedResult) with
  | Except.error _ => Except.error VErr.backend
  | Except.ok vec =>
    let _knn := filterExpr nspace
    let _vector_bytes := serialize_vector vec
    match qb.searchResult with
    | Except.ok search_results =>
      if search_results.length < 2 then Except.ok []
      else
        Except.ok ((pairUp (search_results.drop 1)).filterMap
          (processHit qb col include_vectors s))
    | Except.error _ =>
      let max_docs := count.getD 10
      match qb.scanFirst with
      | Except.error _ => Except.ok []
      | Except.ok keys =>
        if 2 ≤ keys.length then
          match qb.scanSecond with
          | Except.error _ => Except.ok []
          | Except.ok key_bulk => Except.ok (fallbackLoop col s max_docs key_bulk.2 [])
        else Except.ok []

/-! ## Specification-side predicates and concrete backends used by the claims -/

/-- Modelled from the spec's invariant sentence: every non-placeholder record
under the collection's key prefix holds a vector of the collection's declared
dimension (768 in the code). -/
def dimension_invariant (col : Str) (s : RedisState) : Prop :=
  ∀ k rec, alGet s.hashes k = some rec → (col ++ [':']).isPrefixOf k = true →
    k ≠ col ++ ":empty".data → (deserialize_vector rec.vector).length = 768

/-- The field names under which a `Metadata` is serialized (the three required
fields plus the flattened `extra` map). -/
def metadataFieldNames (m : Metadata) : List Str :=
  ["uri".data, "chunk_id".data, "source".data] ++ m.extra.map Prod.fst

/-- A backend whose structured search fails and whose fallback scan also fails
with a backend error. -/
def qbScanFail : QueryBackend :=
  ⟨true, Except.ok [], Except.error (), Except.error (), Except.error (),
   fun _ => none, fun _ => []⟩

/-- A backend whose structured search fails but whose fallback scans reply
normally (the second scan finding no keys). -/
def qbFallback : QueryBackend :=
  ⟨true, Except.ok [], Except.error (), Except.ok ["0".data, "k".data],
   Except.ok ("0".data, []), fun _ => none, fun _ => []⟩

/-! ## Helper lemmas: codec -/

theorem read_write_f64_le (v : Nat) (h : v < 2 ^ 64) :
    read_f64_le (write_f64_le v) = v := by
  simp only [write_f64_le, read_f64_le]
  norm_num
  omega

theorem write_f64_le_length (v : Nat) : (write_f64_le v).length = 8 := rfl

theorem serialize_vector_length (v : List Nat) :
    (serialize_vector v).length = 8 * v.length := by
  induction v with
  | nil => rfl
  | cons x xs ih =>
    simp only [serialize_vector, List.length_append, write_f64_le_length, ih, List.length_cons]
    ring

theorem deserialize_serialize (v : List Nat) (h : ∀ x ∈ v, x < 2 ^ 64) :
    deserialize_vector (serialize_vector v) = v := by
  induction v with
  | nil => rfl
  | cons x xs ih =>
    have hx : x < 2 ^ 64 := h x (List.mem_cons_self x xs)
    have hxs : ∀ y ∈ xs, y < 2 ^ 64 := fun y hy => h y (List.mem_cons_of_mem x hy)
    calc deserialize_vector (serialize_vector (x :: xs))
        = read_f64_le (write_f64_le x) :: deserialize_vector (serialize_vector xs) := rfl
      _ = x :: xs := by rw [read_write_f64_le x hx, ih hxs]

theorem deserialize_serialize_length (v : List Nat) :
    (deserialize_vector (serialize_vector v)).length = v.length := by
  induction v with
  | nil => rfl
  | cons x xs ih =>
    calc (deserialize_vector (serialize_vector (x :: xs))).length
        = (read_f64_le (write_f64_le x) :: deserialize_vector (serialize_vector xs)).length := rfl
      _ = (x :: xs).length := by simp [ih]

/-! ## Helper lemmas: association lists -/

theorem alGet_erase_self {β : Type} (l : List (Str × β)) (k : Str) :
    alGet (alErase l k) k = none := by
  induction l with
  | nil => rfl
  | cons p rest ih =>
    by_cases hp : p.1 = k
    · simp [alErase, hp, ih]
    · simp [alErase, hp, alGet, ih]

theorem alGet_erase_ne {β : Type} (l : List (Str × β)) {k k' : Str} (h : k' ≠ k) :
    alGet (alErase l k) k' = alGet l k' := by
  induction l with
  | nil => rfl
  | cons p rest ih =>
    by_cases hp : p.1 = k
    · have hk : k ≠ k' := fun e => h e.symm
      simp [alErase, hp, alGet, hk, ih]
    · simp [alErase, hp, alGet, ih]

theorem alGet_set_self {β : Type} (l : List (Str × β)) (k : Str) (v : β) :
    alGet (alSet l k v) k = some v := by
  simp [alSet, alGet]

theorem alGet_set_ne {β : Type} (l : List (Str × β)) {k k' : Str} (v : β) (h : k' ≠ k) :
    alGet (alSet l k v) k' = alGet l k' := by
  have : k ≠ k' := fun e => h e.symm
  simp [alSet, alGet, this, alGet_erase_ne l h]

/-! ## C2: codec round trip -/

/-- C2: `serialize_vector` yields exactly `8 * len(v)` bytes (each element laid
out little-endian by `write_f64_le`), and `deserialize_vector` recovers the
vector exactly. Floats are modelled by their 64-bit patterns, on which
identity coincides with Rust `==` for the finite values the claim covers. -/
theorem c2_codec_round_trip (v : List Nat) (h : ∀ x ∈ v, x < 2 ^ 64) :
    (serialize_vector v).length = 8 * v.length ∧
    deserialize_vector (serialize_vector v) = v :=
  ⟨serialize_vector_length v, deserialize_serialize v h⟩

/-- Witness for C2 at the concrete vector `[1, 2^64 - 1]`. -/
theorem c2_witness :
    (∀ x ∈ [1, 18446744073709551615], x < 2 ^ 64) ∧
    ((serialize_vector [1, 18446744073709551615]).length =
        8 * ([1, 18446744073709551615] : List Nat).length ∧
      deserialize_vector (serialize_vector [1, 18446744073709551615]) =
        [1, 18446744073709551615]) :=
  ⟨by decide, c2_codec_round_trip [1, 18446744073709551615] (by decide)⟩

/-! ## C3: delete_collection cleanup failure -/

/-- C3 counterexample: with a successful index drop and a failing placeholder
cleanup, `delete_collection` returns an error — not the success the claim
asserts — because the `?` on the `JSON.DEL` call propagates the failure. -/
theorem c3_counterexample :
    delete_collection true false ("c".data) RedisState.empty =
      Except.error VErr.backend := rfl

/-- C3 amended: if the placeholder-metadata cleanup fails after a successful
index drop, `delete_collection` propagates the cleanup error to the caller as
a failure (there is no log-and-succeed path). -/
theorem c3_cleanup_error_propagated (col : Str) (s : RedisState) :
    delete_collection true false col s = Except.error VErr.backend := rfl

/-! ## C8: idempotent collection creation -/

theorem memStr_create_collection (col : Str) (s : RedisState) :
    memStr (create_collection col s).indexes col = true := by
  unfold create_collection
  by_cases hc : memStr s.indexes col = true
  · rw [if_pos hc]
    exact hc
  · rw [if_neg hc]
    show memStr (col :: s.indexes) col = true
    simp [memStr]

/-- C8: `create_collection` run twice leaves the backend state identical to
running it once (the second run sees the index descriptor and returns without
any writes), and `info().index_exists` is `true` after either one or two
calls. -/
theorem c8_create_collection_idempotent (col : Str) (s : RedisState) :
    create_collection col (create_collection col s) = create_collection col s ∧
    (get_collection_info col (create_collection col s)).index_exists = true ∧
    (get_collection_info col
      (create_collection col (create_collection col s))).index_exists = true := by
  have hmem := memStr_create_collection col s
  have hid : create_collection col (create_collection col s) = create_collection col s := by
    rw [create_collection.eq_def, if_pos hmem]
  refine ⟨hid, ?_, ?_⟩
  · simp [get_collection_info, hmem]
  · rw [hid]
    simp [get_collection_info, hmem]

/-! ## C9: delete completeness -/

/-- C9: on an accepting backend (Redis `DEL` / `JSON.DEL` succeed even on
absent keys), a delete always returns success, a subsequent get reports
not-found, and deleting again — now a nonexistent id — still returns
success. -/
theorem c9_delete_then_get (col x : Str) (s : RedisState) :
    ∃ s1, delete_vector_and_metadata col x s = Except.ok s1 ∧
      get_vector col x s1 = Except.ok none ∧
      ∃ s2, delete_vector_and_metadata col x s1 = Except.ok s2 := by
  refine ⟨⟨alErase s.hashes (col ++ [':'] ++ x),
    alErase s.jsons ("metadata:".data ++ x), s.indexes⟩, rfl, ?_, ⟨_, rfl⟩⟩
  simp [get_vector, alGet_erase_self]

/-! ## C1: upsert/get consistency -/

/-- C1: after `add_vector_and_metadata` stores a point (the deterministic
accepting-backend model, in which the upsert succeeds), `get_vector` on the
point's id returns the record with exactly the stored vector and payload. -/
theorem c1_upsert_get_consistency (col : Str) (point : PointStruct) (s : RedisState)
    (h : ∀ x ∈ point.vector, x < 2 ^ 64) :
    get_vector col point.id (add_vector_and_metadata col point s).2 =
      Except.ok (some ⟨point.id, point.vector, point.payload⟩) := by
  simp [add_vector_and_metadata, get_vector, alGet_set_self,
    deserialize_serialize point.vector h]

/-- Witness for C1: a concrete point round-trips through an empty backend. -/
theorem c1_witness :
    (∀ x ∈ [1, 2], x < 2 ^ 64) ∧
    get_vector ("docs".data)
        ((⟨"a".data, [1, 2], ⟨"hello".data, Metadata.new [] 0 []⟩⟩ : PointStruct)).id
        (add_vector_and_metadata ("docs".data)
          ⟨"a".data, [1, 2], ⟨"hello".data, Metadata.new [] 0 []⟩⟩ RedisState.empty).2 =
      Except.ok (some ⟨"a".data, [1, 2], ⟨"hello".data, Metadata.new [] 0 []⟩⟩) :=
  ⟨by decide,
   c1_upsert_get_consistency ("docs".data)
     ⟨"a".data, [1, 2], ⟨"hello".data, Metadata.new [] 0 []⟩⟩ RedisState.empty (by decide)⟩

/-! ## C5: dimension invariant -/

/-- C5 counterexample: `add_vector_and_metadata` performs no dimension check,
so storing a 1-element vector yields a reachable state containing a
non-placeholder record whose vector length is 1, not the collection's declared
768 — refuting the claim that every record-storing operation preserves the
invariant. -/
theorem c5_counterexample :
    ¬ dimension_invariant ("c".data)
      ((add_vector_and_metadata ("c".data)
        ⟨"a".data, [0], ⟨[], Metadata.new [] 0 []⟩⟩ RedisState.empty).2) := by
  intro h
  have hrec := h ("c".data ++ [':'] ++ "a".data)
    ⟨serialize_vector [0], "metadata:".data ++ "a".data⟩
    (alGet_set_self _ _ _) (by decide) (by decide)
  exact absurd hrec (by decide)

/-- C5 amended: the invariant is preserved only conditionally — when the
caller hands `add_vector_and_metadata` a point whose vector already has length
768, the operation (including the implicit `create_collection`) keeps every
non-placeholder record at length 768; the code itself never enforces this. -/
theorem c5_add_preserves_dimension (col : Str) (point : PointStruct) (s : RedisState)
    (hinv : dimension_invariant col s) (hlen : point.vector.length = 768) :
    dimension_invariant col ((add_vector_and_metadata col point s).2) := by
  intro k rec hget hpre hne
  simp only [add_vector_and_metadata] at hget
  by_cases hk : k = col ++ [':'] ++ point.id
  · subst hk
    rw [alGet_set_self] at hget
    injection hget with hrec
    rw [← hrec]
    show (deserialize_vector (serialize_vector point.vector)).length = 768
    rw [deserialize_serialize_length, hlen]
  · rw [alGet_set_ne _ _ hk] at hget
    by_cases hc : memStr s.indexes col = true
    · rw [create_collection.eq_def, if_pos hc] at hget
      exact hinv k rec hget hpre hne
    · rw [create_collection.eq_def, if_neg hc] at hget
      by_cases hke : k = col ++ ":empty".data
      · exact absurd hke hne
      · simp only [] at hget
        rw [alGet_set_ne _ _ hke] at hget
        exact hinv k rec hget hpre hne

/-- Witness for C5 at a concrete 768-length vector over the empty backend. -/
theorem c5_witness :
    dimension_invariant ("c".data) RedisState.empty ∧
    (List.replicate 768 1).length = 768 ∧
    dimension_invariant ("c".data)
      ((add_vector_and_metadata ("c".data)
        ⟨"a".data, List.replicate 768 1, ⟨[], Metadata.new [] 0 []⟩⟩ RedisState.empty).2) := by
  have hempty : dimension_invariant ("c".data) RedisState.empty := by
    intro k rec hget _ _
    simp [RedisState.empty, alGet] at hget
  refine ⟨hempty, List.length_replicate 768 1, ?_⟩
  exact c5_add_preserves_dimension ("c".data)
    ⟨"a".data, List.replicate 768 1, ⟨[], Metadata.new [] 0 []⟩⟩ RedisState.empty
    hempty (List.length_replicate 768 1)

/-! ## C4: metadata merging in upsert_vector -/

theorem defaulted_uri (meta : Option Json) :
    ((alGet (defaultedMetadataMap meta) ("uri".data)).bind jsonAsStr).getD [] =
      ((alGet (metaToMap meta) ("uri".data)).bind jsonAsStr).getD [] := by
  simp only [defaultedMetadataMap]
  by_cases h0 : (alGet (metaToMap meta) ("uri".data)).isSome
  · rw [if_pos h0]
    by_cases h1 : (alGet (metaToMap meta) ("chunk_id".data)).isSome
    · rw [if_pos h1]
    · rw [if_neg h1, alGet_set_ne _ _ (by decide : ("uri".data : Str) ≠ "chunk_id".data)]
  · rw [if_neg h0]
    rw [Option.not_isSome_iff_eq_none] at h0
    by_cases h1 :
        (alGet (alSet (metaToMap meta) ("uri".data) (Json.str [])) ("chunk_id".data)).isSome
    · rw [if_pos h1, alGet_set_self, h0]
      rfl
    · rw [if_neg h1, alGet_set_ne _ _ (by decide : ("uri".data : Str) ≠ "chunk_id".data),
        alGet_set_self, h0]
      rfl

theorem defaulted_chunk (meta : Option Json) :
    ((alGet (defaultedMetadataMap meta) ("chunk_id".data)).bind jsonAsU64).getD 0 =
      ((alGet (metaToMap meta) ("chunk_id".data)).bind jsonAsU64).getD 0 := by
  simp only [defaultedMetadataMap]
  by_cases h0 : (alGet (metaToMap meta) ("uri".data)).isSome
  · rw [if_pos h0]
    by_cases h1 : (alGet (metaToMap meta) ("chunk_id".data)).isSome
    · rw [if_pos h1]
    · rw [if_neg h1, alGet_set_self]
      rw [Option.not_isSome_iff_eq_none] at h1
      rw [h1]
      rfl
  · rw [if_neg h0]
    have hac : alGet (alSet (metaToMap meta) ("uri".data) (Json.str [])) ("chunk_id".data) =
        alGet (metaToMap meta) ("chunk_id".data) :=
      alGet_set_ne _ _ (by decide : ("chunk_id".data : Str) ≠ "uri".data)
    by_cases h1 :
        (alGet (alSet (metaToMap meta) ("uri".data) (Json.str [])) ("chunk_id".data)).isSome
    · rw [if_pos h1, hac]
    · rw [if_neg h1, alGet_set_self]
      rw [hac, Option.not_isSome_iff_eq_none] at h1
      rw [h1]
      rfl

theorem defaulted_source (meta : Option Json) :
    alGet (defaultedMetadataMap meta) ("source".data) =
      alGet (metaToMap meta) ("source".data) := by
  simp only [defaultedMetadataMap]
  by_cases h0 : (alGet (metaToMap meta) ("uri".data)).isSome
  · rw [if_pos h0]
    by_cases h1 : (alGet (metaToMap meta) ("chunk_id".data)).isSome
    · rw [if_pos h1]
    · rw [if_neg h1, alGet_set_ne _ _ (by decide : ("source".data : Str) ≠ "chunk_id".data)]
  · rw [if_neg h0]
    by_cases h1 :
        (alGet (alSet (metaToMap meta) ("uri".data) (Json.str [])) ("chunk_id".data)).isSome
    · rw [if_pos h1, alGet_set_ne _ _ (by decide : ("source".data : Str) ≠ "uri".data)]
    · rw [if_neg h1, alGet_set_ne _ _ (by decide : ("source".data : Str) ≠ "chunk_id".data),
        alGet_set_ne _ _ (by decide : ("source".data : Str) ≠ "uri".data)]

theorem merged_uri (nspace : Option Str) (meta : Option Json) :
    ((alGet (mergedMetadataMap nspace meta) ("uri".data)).bind jsonAsStr).getD [] =
      ((alGet (metaToMap meta) ("uri".data)).bind jsonAsStr).getD [] := by
  cases nspace with
  | none => exact defaulted_uri meta
  | some n =>
    simp only [mergedMetadataMap]
    rw [alGet_set_ne _ _ (by decide : ("uri".data : Str) ≠ "namespace".data)]
    exact defaulted_uri meta

theorem merged_chunk (nspace : Option Str) (meta : Option Json) :
    ((alGet (mergedMetadataMap nspace meta) ("chunk_id".data)).bind jsonAsU64).getD 0 =
      ((alGet (metaToMap meta) ("chunk_id".data)).bind jsonAsU64).getD 0 := by
  cases nspace with
  | none => exact defaulted_chunk meta
  | some n =>
    simp only [mergedMetadataMap]
    rw [alGet_set_ne _ _ (by decide : ("chunk_id".data : Str) ≠ "namespace".data)]
    exact defaulted_chunk meta

theorem merged_source (nspace : Option Str) (meta : Option Json) :
    alGet (mergedMetadataMap nspace meta) ("source".data) =
      alGet (metaToMap meta) ("source".data) := by
  cases nspace with
  | none => exact defaulted_source meta
  | some n =>
    simp only [mergedMetadataMap]
    rw [alGet_set_ne _ _ (by decide : ("source".data : Str) ≠ "namespace".data)]
    exact defaulted_source meta

/-- C4 counterexample: with caller metadata `{"foo": 7}` and namespace `"ns"`,
the persisted metadata is exactly `{uri: "", chunk_id: 0, source: "", extra: {}}`
— neither the caller-supplied field `foo` nor the namespace tag appears among
its serialized field names, refuting the claim that every caller-supplied field
and the namespace tag are present in the persisted metadata. -/
theorem c4_counterexample :
    alGet ((upsert_vector ("c".data) [0] (some ("a".data)) (some ("ns".data))
        (some (Json.obj [("foo".data, Json.num 7)])) (some ("hello".data))
        (fun _ => []) RedisState.empty).2).jsons ("metadata:".data ++ "a".data) =
      some ⟨"hello".data, ⟨[], 0, [], []⟩⟩ ∧
    ¬ ("foo".data ∈ metadataFieldNames ⟨[], 0, [], []⟩) ∧
    ¬ ("namespace".data ∈ metadataFieldNames ⟨[], 0, [], []⟩) :=
  ⟨rfl, by decide, by decide⟩

/-- C4 amended: the metadata persisted by `upsert_vector` consists of exactly
the three required fields extracted from the caller's map — `uri` (caller's
string value, else the default `""`), `chunk_id` (caller's non-negative
integer, else the default `0`) and `source` (caller's string value, else `""`)
— with an empty extra-field map: all other caller-supplied fields and the
namespace tag are dropped before persistence. -/
theorem c4_persisted_metadata (col : Str) (vector : List Nat) (vector_id : Option Str)
    (nspace : Option Str) (meta : Option Json) (content : Option Str)
    (uuidOf : List Nat → Str) (s : RedisState) :
    alGet ((upsert_vector col vector vector_id nspace meta content uuidOf s).2).jsons
        ("metadata:".data ++ (match vector_id with | some i => i | none => uuidOf vector)) =
      some ⟨content.getD [],
        Metadata.new (((alGet (metaToMap meta) ("uri".data)).bind jsonAsStr).getD [])
          (((alGet (metaToMap meta) ("chunk_id".data)).bind jsonAsU64).getD 0)
          (((alGet (metaToMap meta) ("source".data)).bind jsonAsStr).getD [])⟩ := by
  cases vector_id with
  | some i =>
    simp only [upsert_vector, add_vector_and_metadata]
    rw [alGet_set_self, merged_uri, merged_chunk, merged_source]
  | none =>
    simp only [upsert_vector, add_vector_and_metadata]
    rw [alGet_set_self, merged_uri, merged_chunk, merged_source]


/-! ## C10: top-level id resolution -/

theorem hasColon_append_colon (a r : Str) : hasColon (a ++ ':' :: r) = true := by
  induction a with
  | nil => rfl
  | cons c a' ih =>
    by_cases hc : c = ':'
    · simp [hasColon, hc]
    · simp [hasColon, hc, ih]

theorem splitOnChar_no_colon (d : Str) (h : hasColon d = false) :
    splitOnChar ':' d = [d] := by
  induction d with
  | nil => rfl
  | cons c rest ih =>
    by_cases hc : c = ':'
    · simp [hasColon, hc] at h
    · simp only [hasColon, if_neg hc] at h
      simp [splitOnChar, hc, ih h]

theorem splitOnChar_append_colon (a r : Str) (h : hasColon a = false) :
    splitOnChar ':' (a ++ ':' :: r) = a :: splitOnChar ':' r := by
  induction a with
  | nil => simp [splitOnChar]
  | cons c a' ih =>
    by_cases hc : c = ':'
    · simp [hasColon, hc] at h
    · simp only [hasColon, if_neg hc] at h
      simp [splitOnChar, hc, ih h]

/-- C10: a `vector_id` of the form `a:b:c` (no colons inside `a` or `b`)
resolves to collection `a` (the text before the first `':'`) and record id `b`
(only the second segment — the tail `c` is silently dropped), ignoring the
`collection_name` argument; a `vector_id` of the form `a:b` resolves the same
way; and a bare id with no collection argument is looked up in the collection
literally named `"empty"`. -/
theorem c10_id_resolution (a b c d : Str) (cn : Option Str) (s : RedisState)
    (ha : hasColon a = false) (hb : hasColon b = false) (hd : hasColon d = false) :
    get_vector_top (a ++ ':' :: (b ++ ':' :: c)) cn s = get_vector a b s ∧
    get_vector_top (a ++ ':' :: b) cn s = get_vector a b s ∧
    get_vector_top d none s = get_vector ("empty".data) d s := by
  refine ⟨?_, ?_, ?_⟩
  · simp only [get_vector_top, hasColon_append_colon, if_pos,
      splitOnChar_append_colon _ _ ha, splitOnChar_append_colon _ _ hb]
    rfl
  · simp only [get_vector_top, hasColon_append_colon, if_pos,
      splitOnChar_append_colon _ _ ha, splitOnChar_no_colon _ hb]
    rfl
  · simp only [get_vector_top, hd]
    rfl

/-- Witness for C10 at concrete segments. -/
theorem c10_witness :
    (hasColon ("col".data) = false ∧ hasColon ("id".data) = false ∧
      hasColon ("bare".data) = false) ∧
    (get_vector_top ("col".data ++ ':' :: ("id".data ++ ':' :: "x:y".data))
        (some ("zzz".data)) RedisState.empty =
      get_vector ("col".data) ("id".data) RedisState.empty ∧
    get_vector_top ("col".data ++ ':' :: "id".data) (some ("zzz".data)) RedisState.empty =
      get_vector ("col".data) ("id".data) RedisState.empty ∧
    get_vector_top ("bare".data) none RedisState.empty =
      get_vector ("empty".data) ("bare".data) RedisState.empty) :=
  ⟨⟨by decide, by decide, by decide⟩,
   c10_id_resolution ("col".data) ("id".data) ("x:y".data) ("bare".data)
     (some ("zzz".data)) RedisState.empty (by decide) (by decide) (by decide)⟩


/-! ## C6 and C7: the query fallback path -/

theorem load_entry_score (col id : Str) (s : RedisState) (e : Entry)
    (h : load_entry col id s = Except.ok (some e)) : e.score = 0 := by
  unfold load_entry at h
  split at h <;> simp_all
  rw [← h]

theorem fallbackLoop_spec (col : Str) (s : RedisState) (max_docs : Nat) (keys : List Str) :
    ∀ acc : List Entry, (∀ e ∈ acc, e.score = 0) → acc.length < max_docs →
      (fallbackLoop col s max_docs keys acc).length ≤ max_docs ∧
      ∀ e ∈ fallbackLoop col s max_docs keys acc, e.score = 0 := by
  induction keys with
  | nil => exact fun acc hacc hlen => ⟨Nat.le_of_lt hlen, hacc⟩
  | cons key rest ih =>
    intro acc hacc hlen
    by_cases hp : 1 < (splitOnChar ':' key).length
    · cases hl : load_entry col (((splitOnChar ':' key).drop 1).headD []) s with
      | ok oe =>
        cases oe with
        | some e =>
          simp only [fallbackLoop, hl, if_pos hp]
          have hesc : e.score = 0 := load_entry_score _ _ _ _ hl
          have hacc' : ∀ x ∈ acc ++ [e], x.score = 0 := by
            intro x hx
            rcases List.mem_append.mp hx with hx | hx
            · exact hacc x hx
            · rw [List.mem_singleton.mp hx]
              exact hesc
          have hlen' : (acc ++ [e]).length ≤ max_docs := by
            simp only [List.length_append, List.length_singleton]
            omega
          by_cases hbreak : max_docs ≤ (acc ++ [e]).length
          · rw [if_pos hbreak]
            exact ⟨hlen', hacc'⟩
          · rw [if_neg hbreak]
            exact ih (acc ++ [e]) hacc' (Nat.lt_of_not_le hbreak)
        | none =>
          simp only [fallbackLoop, hl, if_pos hp]
          exact ih acc hacc hlen
      | error er =>
        simp only [fallbackLoop, hl, if_pos hp]
        exact ih acc hacc hlen
    · simp only [fallbackLoop, if_neg hp]
      exact ih acc hacc hlen

theorem query_fallback_core (qb : QueryBackend) (col : Str) (count : Option Nat)
    (s' : RedisState) (hscan : count = some 0 → qb.scanFirst.isOk = false) :
    ∃ es, ((match qb.scanFirst with
           | Except.error _ => Except.ok []
           | Except.ok keys =>
             if 2 ≤ keys.length then
               match qb.scanSecond with
               | Except.error _ => Except.ok []
               | Except.ok key_bulk =>
                 Except.ok (fallbackLoop col s' (count.getD 10) key_bulk.2 [])
             else Except.ok []) : Except VErr (List Entry)) = Except.ok es ∧
      es.length ≤ count.getD 10 ∧ ∀ e ∈ es, e.score = 0 := by
  cases hs1 : qb.scanFirst with
  | error u => exact ⟨[], rfl, by simp, by simp⟩
  | ok keys =>
    have hpos : 0 < count.getD 10 := by
      cases count with
      | none => simp
      | some n =>
        cases n with
        | zero =>
          have hko := hscan rfl
          rw [hs1] at hko
          simp [Except.isOk, Except.toBool] at hko
        | succ m => simp
    simp only []
    by_cases hk : 2 ≤ keys.length
    · rw [if_pos hk]
      cases hs2 : qb.scanSecond with
      | error u => exact ⟨[], rfl, by simp, by simp⟩
      | ok kb =>
        obtain ⟨h1, h2⟩ := fallbackLoop_spec col s' (count.getD 10) kb.2 [] (by simp) hpos
        exact ⟨_, rfl, h1, h2⟩
    · rw [if_neg hk]
      exact ⟨[], rfl, by simp, by simp⟩

/-- C6: whenever the structured KNN search call fails (and control reaches it:
the query vector is given directly or the embedding succeeds) on a backend
that rejects `SCAN ... COUNT 0` (as Redis does), `query` still returns `Ok`
with at most `k` entries, every one carrying score `0.0`, never propagating
the search error. -/
theorem c6_fallback_degrades (qb : QueryBackend) (col : Str) (count : Option Nat)
    (iv : Bool) (nspace : Option Str) (qv : Option (List Nat)) (s : RedisState)
    (hsearch : qb.searchResult = Except.error ())
    (hvec : qv.isSome = true ∨ qb.embedResult.isOk = true)
    (hscan : count = some 0 → qb.scanFirst.isOk = false) :
    ∃ es, query qb col count iv nspace qv s = Except.ok es ∧
      es.length ≤ count.getD 10 ∧ ∀ e ∈ es, e.score = 0 := by
  unfold query
  cases qv with
  | some v =>
    simp only []
    rw [hsearch]
    exact query_fallback_core qb col count _ hscan
  | none =>
    rcases hvec with h | h
    · simp at h
    · cases he : qb.embedResult with
      | error u => simp [he, Except.isOk, Except.toBool] at h
      | ok w =>
        simp only []
        rw [hsearch]
        exact query_fallback_core qb col count _ hscan

/-- Witness for C6: a concrete backend whose search fails and whose scans
reply normally. -/
theorem c6_witness :
    (qbFallback.searchResult = Except.error () ∧
      ((some ([] : List Nat)).isSome = true ∨ qbFallback.embedResult.isOk = true) ∧
      ((some 5 : Option Nat) = some 0 → qbFallback.scanFirst.isOk = false)) ∧
    ∃ es, query qbFallback ("c".data) (some 5) false none (some []) RedisState.empty =
        Except.ok es ∧ es.length ≤ (some 5 : Option Nat).getD 10 ∧ ∀ e ∈ es, e.score = 0 :=
  ⟨⟨rfl, Or.inl rfl, fun h => absurd h (by decide)⟩,
   c6_fallback_degrades qbFallback ("c".data) (some 5) false none (some [])
     RedisState.empty rfl (Or.inl rfl) (fun h => absurd h (by decide))⟩

/-- C7 counterexample: with the structured search failing and the fallback's
first scan itself failing with a backend error, `query` returns `Ok []` — the
scan failure is swallowed, not propagated as the claim asserts. -/
theorem c7_counterexample :
    query qbScanFail ("c".data) (some 3) false none (some []) RedisState.empty =
      Except.ok [] := rfl

/-- C7 amended: a backend failure in the fallback's scan is absorbed by the
`if let Ok(...)` pattern — `query` still returns `Ok` (with an empty entry
list when the first scan fails); nothing from the fallback is propagated as an
error. -/
theorem c7_fallback_scan_swallowed (qb : QueryBackend) (col : Str) (count : Option Nat)
    (iv : Bool) (nspace : Option Str) (qv : Option (List Nat)) (s : RedisState)
    (hsearch : qb.searchResult = Except.error ())
    (hvec : qv.isSome = true ∨ qb.embedResult.isOk = true)
    (hscan1 : qb.scanFirst = Except.error ()) :
    query qb col count iv nspace qv s = Except.ok [] := by
  unfold query
  cases qv with
  | some v =>
    simp only []
    rw [hsearch]
    simp only []
    rw [hscan1]
  | none =>
    rcases hvec with h | h
    · simp at h
    · cases he : qb.embedResult with
      | error u => simp [he, Except.isOk, Except.toBool] at h
      | ok w =>
        simp only []
        rw [hsearch]
        simp only []
        rw [hscan1]

/-- Witness for C7's amended claim at a concrete backend and call. -/
theorem c7_witness :
    (qbScanFail.searchResult = Except.error () ∧
      ((some ([1] : List Nat)).isSome = true ∨ qbScanFail.embedResult.isOk = true) ∧
      qbScanFail.scanFirst = Except.error ()) ∧
    query qbScanFail ("d".data) none true (some ("n".data)) (some [1]) RedisState.empty =
      Except.ok [] :=
  ⟨⟨rfl, Or.inl rfl, rfl⟩,
   c7_fallback_scan_swallowed qbScanFail ("d".data) none true (some ("n".data)) (some [1])
     RedisState.empty rfl (Or.inl rfl) rfl⟩


end VectorDB
